import Mathlib

set_option maxRecDepth 20000

/-
Verification of the pyramid_template engine: the markup-to-template parser
(both the `template.rs` revision built on `parse_event` and the `lib.rs`
revision built on `from_event_reader`), the template registry and its
loading directives, and the inheritance-aware instantiation algorithm
`Template::apply`.  External collaborators (the markup tokenizer, the
property-expression parser, the entity/property store) are modelled from the
specification at their interface boundary; everything else is translated
directly from the Rust source.
-/

namespace Pyramid

/-- Modelled from the spec: the value nodes of the external pyramid
property-expression language (`pyramid::propnode::PropNode`), of which this
engine only uses integers, strings, arrays and named transforms. -/
inductive PropNode where
  | integer (i : Int)
  | string (s : String)
  | array (xs : List PropNode)
  | transform (name : String) (arg : PropNode)

/-- Modelled from the spec: the translation-error type of the external
pyramid crate (`PropTranslateErr`); `unrecognizedPropTransform` is the
variant named in `load_templates`, `typeMismatch` stands for the "value has
the wrong shape" errors of `as_array`/`as_transform`/`as_string`. -/
inductive PropTranslateErr where
  | unrecognizedPropTransform (name : String)
  | typeMismatch (expected : String)
deriving DecidableEq

/-- Modelled from the spec: `Node.as_array` of the external
property-expression interface. -/
def PropNode.as_array : PropNode → Except PropTranslateErr (List PropNode)
  | PropNode.array xs => Except.ok xs
  | _ => Except.error (PropTranslateErr.typeMismatch ("array"))

/-- Modelled from the spec: `Node.as_transform` of the external
property-expression interface. -/
def PropNode.as_transform : PropNode → Except PropTranslateErr (String × PropNode)
  | PropNode.transform n a => Except.ok (n, a)
  | _ => Except.error (PropTranslateErr.typeMismatch ("transform"))

/-- Modelled from the spec: `Node.as_string` of the external
property-expression interface. -/
def PropNode.as_string : PropNode → Except PropTranslateErr String
  | PropNode.string s => Except.ok s
  | _ => Except.error (PropTranslateErr.typeMismatch ("string"))

/-- Modelled from the spec: numeric value of a digit string. -/
def digitsVal (cs : List Char) : Nat :=
  cs.foldl (fun a c => a * 10 + (c.toNat - 48)) 0

/-- Modelled from the spec: read a decimal integer literal, with an optional
leading minus sign. -/
def parseIntChars : List Char → Option Int
  | [] => none
  | '-' :: rest =>
    if rest ≠ [] ∧ rest.all Char.isDigit then some (-(Int.ofNat (digitsVal rest)))
    else none
  | cs =>
    if cs.all Char.isDigit then some (Int.ofNat (digitsVal cs)) else none

/-- Modelled from the spec: the external property-expression parser
(`pyramid::propnode_parser::parse`).  Decimal integer literals parse to
integer nodes and singly quoted literals to string nodes; anything else is
a parse error carrying the offending string. -/
def propnodeParse (s : String) : Except String PropNode :=
  match parseIntChars s.toList with
  | some i => Except.ok (PropNode.integer i)
  | none =>
    match s.toList with
    | '\'' :: rest =>
      if rest ≠ [] ∧ rest.getLast? = some '\'' then
        Except.ok (PropNode.string (String.mk rest.dropLast))
      else Except.error s
    | _ => Except.error s

/-- The `Template` struct of `template.rs`/`lib.rs`: a type name, an optional
inheritance reference by name, the ordered property list and the ordered
children. -/
inductive Template where
  | mk (type_name : String) (inherits : Option String)
       (properties : List (String × PropNode)) (children : List Template)

def Template.type_name : Template → String
  | Template.mk n _ _ _ => n

def Template.inherits : Template → Option String
  | Template.mk _ i _ _ => i

def Template.properties : Template → List (String × PropNode)
  | Template.mk _ _ ps _ => ps

def Template.children : Template → List Template
  | Template.mk _ _ _ cs => cs

/-- `parent.children.push(template)` of the parser's `EndElement` branch. -/
def Template.addChild : Template → Template → Template
  | Template.mk n i ps cs, c => Template.mk n i ps (cs ++ [c])

/-- The generic element-event stream consumed by the parser (the spec's
interface boundary for the external markup tokenizer): start element with
attributes, end element, tokenizer error, and other events to be ignored. -/
inductive XmlEvent where
  | startElement (name : String) (attributes : List (String × String))
  | endElement (name : String)
  | errorEvent (msg : String)
  | other
deriving DecidableEq

/-- Outcome of the shared `StartElement` attribute scan: either the new
template builder, or a panic carrying the offending attribute string (the
`panic!("Error parsing: ...")` of both revisions). -/
inductive StartResult where
  | ok (t : Template)
  | panicked (offending : String)

/-- The attribute loop of the `StartElement` branch (identical in
`template.rs` lines 47-53 and `lib.rs` lines 47-53): attributes named
`inherits` are skipped, every other attribute value goes through the
property-expression parser in attribute order, and the first parse failure
aborts carrying the offending attribute value. -/
def collectProps : List (String × String) → Except String (List (String × PropNode))
  | [] => Except.ok []
  | (k, v) :: rest =>
    if k == "inherits" then collectProps rest
    else
      match propnodeParse v with
      | Except.ok node =>
        match collectProps rest with
        | Except.ok ps => Except.ok ((k, node) :: ps)
        | Except.error e => Except.error e
      | Except.error _ => Except.error v

/-- The `StartElement` branch shared by both revisions: capture the first
attribute named `inherits` as the inheritance reference, build the property
list from the remaining attributes, start with no children. -/
def buildStart (name : String) (attrs : List (String × String)) : StartResult :=
  match collectProps attrs with
  | Except.ok ps =>
    StartResult.ok (Template.mk name
      ((attrs.find? (fun a => a.1 == "inherits")).map (fun a => a.2)) ps [])
  | Except.error v => StartResult.panicked v

/-- Result of a parsing run: a parsed template, a returned error (`Err` in
the Rust), or a panic. -/
inductive ParseOut where
  | ok (t : Template)
  | err (msg : String)
  | panicked (offending : String)

/-- `Template::from_event_reader` of `lib.rs` (lines 32-76), with the
remaining event stream made explicit: an explicit stack of in-progress
builders, `StartElement` pushes, `EndElement` pops and either appends to the
new top's children or returns the completed template, a tokenizer error is
returned as `Err("Xml error: ...")`, and exhausting the stream yields
`Err("Unbalanced xml tree")`, as does popping an empty stack. -/
def fromEventsGo : List XmlEvent → List Template → ParseOut × List XmlEvent
  | [], _ => (ParseOut.err ("Unbalanced xml tree"), [])
  | e :: rest, stack =>
    match e with
    | XmlEvent.startElement n attrs =>
      match buildStart n attrs with
      | StartResult.ok t => fromEventsGo rest (t :: stack)
      | StartResult.panicked v => (ParseOut.panicked v, rest)
    | XmlEvent.endElement _ =>
      match stack with
      | [] => (ParseOut.err ("Unbalanced xml tree"), rest)
      | t :: [] => (ParseOut.ok t, rest)
      | t :: p :: ps => fromEventsGo rest (p.addChild t :: ps)
    | XmlEvent.errorEvent m => (ParseOut.err ("Xml error: " ++ m), rest)
    | XmlEvent.other => fromEventsGo rest stack

/-- `Template::from_event_reader` run from an empty stack. -/
def fromEventReader (evs : List XmlEvent) : ParseOut × List XmlEvent :=
  fromEventsGo evs []

/-- Result of `Template::parse_event` of `template.rs` for one event:
a completed template (`Some`), continue (`None`), or a panic (the
`panic!` on a property-expression failure or a tokenizer error). -/
inductive EventStep where
  | yield (t : Template)
  | cont
  | panicked (msg : String)

/-- `Template::parse_event` of `template.rs` (lines 34-75), with the mutated
stack returned: `StartElement` pushes a builder, `EndElement` pops and
appends to the new top or yields the completed template, popping an empty
stack silently continues (`None => return None`), a tokenizer error
panics. -/
def parse_event (stack : List Template) (e : XmlEvent) : EventStep × List Template :=
  match e with
  | XmlEvent.startElement n attrs =>
    match buildStart n attrs with
    | StartResult.ok t => (EventStep.cont, t :: stack)
    | StartResult.panicked v => (EventStep.panicked v, stack)
  | XmlEvent.endElement _ =>
    match stack with
    | [] => (EventStep.cont, [])
    | t :: [] => (EventStep.yield t, [])
    | t :: p :: ps => (EventStep.cont, p.addChild t :: ps)
  | XmlEvent.errorEvent m => (EventStep.panicked ("Xml error: " ++ m), stack)
  | XmlEvent.other => (EventStep.cont, stack)

/-- The event loop of `Template::from_string` of `template.rs` (lines
22-33): feed events to `parse_event` until one yields a template; an
exhausted stream is `Err("No template parsed")`. -/
def fromStringGo : List XmlEvent → List Template → ParseOut
  | [], _ => ParseOut.err ("No template parsed")
  | e :: rest, stack =>
    match parse_event stack e with
    | (EventStep.yield t, _) => ParseOut.ok t
    | (EventStep.cont, stack') => fromStringGo rest stack'
    | (EventStep.panicked v, _) => ParseOut.panicked v

/-- Modelled from the spec: a character usable in an element or attribute
name by the external markup tokenizer. -/
def isNameChar (c : Char) : Bool :=
  c.isAlphanum || c == '_' || c == ':' || c == '-' || c == '.'

/-- Modelled from the spec: read a name token. -/
def takeName (cs : List Char) : String × List Char :=
  (String.mk (cs.takeWhile isNameChar), cs.dropWhile isNameChar)

/-- Modelled from the spec: the attribute scanner of the external markup
tokenizer; reads `key="value"` pairs up to `>` or `/>`, reporting whether
the element was self-closing. -/
def readAttrs : Nat → List Char → Option (List (String × String) × Bool × List Char)
  | 0, _ => none
  | n + 1, cs =>
    match cs.dropWhile Char.isWhitespace with
    | '/' :: '>' :: rest => some ([], true, rest)
    | '>' :: rest => some ([], false, rest)
    | [] => none
    | c :: cs' =>
      if isNameChar c then
        match takeName (c :: cs') with
        | (k, cs1) =>
          match cs1 with
          | '=' :: '"' :: cs2 =>
            match cs2.dropWhile (fun d => d ≠ '"') with
            | '"' :: cs3 =>
              match readAttrs n cs3 with
              | some (attrs, sc, rest) =>
                some ((k, String.mk (cs2.takeWhile (fun d => d ≠ '"'))) :: attrs, sc, rest)
              | none => none
            | _ => none
          | _ => none
      else none

/-- Modelled from the spec: the external markup tokenizer
(`xml::reader::EventReader`) at the engine's interface boundary.  Emits a
start-element event (with its attributes) for each open tag, an end-element
event for each close tag, both a start and an end event for a self-closing
tag, nothing for text, and a single error event for malformed markup. -/
def tokGo : Nat → List Char → List XmlEvent
  | 0, _ => [XmlEvent.errorEvent ("tokenizer out of fuel")]
  | _ + 1, [] => []
  | n + 1, '<' :: '/' :: cs =>
    match takeName cs with
    | (nm, cs1) =>
      match cs1.dropWhile Char.isWhitespace with
      | '>' :: rest => XmlEvent.endElement nm :: tokGo n rest
      | _ => [XmlEvent.errorEvent ("malformed end tag")]
  | n + 1, '<' :: cs =>
    match takeName cs with
    | (nm, cs1) =>
      if nm == "" then [XmlEvent.errorEvent ("malformed start tag")]
      else
        match readAttrs (n + 1) cs1 with
        | some (attrs, true, rest) =>
          XmlEvent.startElement nm attrs :: XmlEvent.endElement nm :: tokGo n rest
        | some (attrs, false, rest) => XmlEvent.startElement nm attrs :: tokGo n rest
        | none => [XmlEvent.errorEvent ("malformed start tag")]
  | n + 1, _ :: cs => tokGo n cs

/-- Modelled from the spec: the event stream the external tokenizer produces
for a markup string. -/
def xmlEvents (s : String) : List XmlEvent :=
  tokGo (s.length + 1) s.toList

/-- `Template::from_string` of `template.rs` (lines 22-33): tokenize the
string and run the `parse_event` loop from an empty stack. -/
def Template.fromString (s : String) : ParseOut :=
  fromStringGo (xmlEvents s) []

/-- `Template::from_string` of `lib.rs` (lines 28-31): tokenize the string
and run `from_event_reader`. -/
def fromStringLib (s : String) : ParseOut :=
  (fromEventsGo (xmlEvents s) []).1

/-- Modelled from the spec: one entity record of the external store — its
identifier, its parent's identifier and its type name, as created by
`append_entity`. -/
structure Ent where
  id : Nat
  parent : Nat
  ty : String

/-- Modelled from the spec: one property record of the external store. -/
structure PropEntry where
  ent : Nat
  key : String
  value : PropNode

/-- Modelled from the spec: the external entity/property store at the
engine's interface boundary — an allocation counter for entity identifiers,
the entity records in creation order and the property records in insertion
order. -/
structure Store where
  nextId : Nat
  ents : List Ent
  props : List PropEntry

/-- Modelled from the spec: `has_property` of the external store. -/
def hasProp (s : Store) (e : Nat) (k : String) : Bool :=
  s.props.any (fun p => p.ent == e && p.key == k)

/-- Modelled from the spec: `get_property_value` of the external store. -/
def getProp (s : Store) (e : Nat) (k : String) : Option PropNode :=
  (s.props.find? (fun p => p.ent == e && p.key == k)).map (fun p => p.value)

/-- Modelled from the spec: `set_property` of the external store — replace
the value under an existing key, otherwise append a new property record. -/
def setProp (s : Store) (e : Nat) (k : String) (v : PropNode) : Store :=
  if hasProp s e k then
    { s with props := s.props.map (fun p => if p.ent == e && p.key == k then { p with value := v } else p) }
  else { s with props := s.props ++ [⟨e, k, v⟩] }

/-- Modelled from the spec: `append_entity` of the external store — create a
new entity of the given type under the parent and return its fresh
identifier. -/
def appendEntity (s : Store) (parent : Nat) (ty : String) : Store × Nat :=
  ({ s with nextId := s.nextId + 1, ents := s.ents ++ [⟨s.nextId, parent, ty⟩] }, s.nextId)

/-- One observable store operation performed by `Template::apply`. -/
inductive Op where
  | setOp (e : Nat) (k : String) (v : PropNode)
  | newEntity (parent : Nat) (id : Nat) (ty : String)

/-- The template registry, `HashMap<String, Template>` of
`TemplateSubSystem`, modelled as an association list with unique keys. -/
abbrev Registry := List (String × Template)

/-- `HashMap::get` by template name. -/
def Registry.find (reg : Registry) (k : String) : Option Template :=
  (List.find? (fun p => p.1 == k) reg).map (fun p => p.2)

/-- `HashMap::insert`: replace the value under an existing key, otherwise
add a new binding. -/
def Registry.insert : Registry → String → Template → Registry
  | [], k, v => [(k, v)]
  | (k', v') :: rest, k, v =>
    if k' == k then (k, v) :: rest else (k', v') :: Registry.insert rest k v

/-- `self.templates.insert(template.type_name.clone(), template)` of
`load_templates` and `load_templates_from_file`. -/
def insertTemplate (reg : Registry) (t : Template) : Registry :=
  Registry.insert reg t.type_name t

/-- The own-properties loop of `Template::apply` (`template.rs` lines
82-88): for each `(key, value)` pair in declaration order, set the property
only when the store reports the entity does not already have it. -/
def applyProps (e : Nat) : List (String × PropNode) → Store → Store × List Op
  | [], s => (s, [])
  | (k, v) :: rest, s =>
    if hasProp s e k then applyProps e rest s
    else
      match applyProps e rest (setProp s e k v) with
      | (s', ops) => (s', Op.setOp e k v :: ops)

/-- The children loop of `Template::apply` (`template.rs` lines 89-92),
parameterized by the recursive call: create a child entity of the child's
type name under the target, then apply the child template to it. -/
def applyChildrenGo (ap : Template → Nat → Store → Option (Store × List Op)) (e : Nat) :
    List Template → Store → Option (Store × List Op)
  | [], s => some (s, [])
  | c :: cs, s =>
    match appendEntity s e c.type_name with
    | (s1, cid) =>
      match ap c cid s1 with
      | none => none
      | some (s2, ops2) =>
        match applyChildrenGo ap e cs s2 with
        | none => none
        | some (s3, ops3) => some (s3, Op.newEntity e cid c.type_name :: (ops2 ++ ops3))

/-- `Template::apply` of `template.rs` (lines 76-93), with a fuel parameter
bounding the recursion depth (the Rust recursion is bounded only by the call
stack; an inheritance cycle diverges) and the performed store operations
recorded: first the inheritance step (recursively applying the base
template when its name is found in the registry, silently skipped
otherwise), then the own-property loop, then the children loop.  `none`
means the fuel was exhausted. -/
def applyF : Nat → Template → Registry → Nat → Store → Option (Store × List Op)
  | 0, _, _, _, _ => none
  | n + 1, t, reg, e, s =>
    match (match t.inherits with
           | some b =>
             match Registry.find reg b with
             | some bt => applyF n bt reg e s
             | none => some (s, ([] : List Op))
           | none => some (s, ([] : List Op))) with
    | none => none
    | some (s1, ops1) =>
      match applyProps e t.properties s1 with
      | (s2, ops2) =>
        match applyChildrenGo (fun c e' s' => applyF n c reg e' s') e t.children s2 with
        | none => none
        | some (s3, ops3) => some (s3, ops1 ++ (ops2 ++ ops3))

/-- The own part of `Template::apply` (`template.rs` lines 82-92): the
own-property loop followed by the children loop, children applied with the
given fuel. -/
def applyOwn (n : Nat) (t : Template) (reg : Registry) (e : Nat) (s : Store) :
    Option (Store × List Op) :=
  match applyProps e t.properties s with
  | (s2, ops2) =>
    match applyChildrenGo (fun c e' s' => applyF n c reg e' s') e t.children s2 with
    | none => none
    | some (s3, ops3) => some (s3, ops2 ++ ops3)

/-- The loop of `TemplateSubSystem::load_templates_from_file` (`lib.rs`
lines 146-151): while events remain, run `Template::from_event_reader`;
insert the parsed template on success, ignore a returned error, propagate a
panic.  The fuel is instantiated with the length of the event list, which
is always sufficient because every call consumes at least one event. -/
def loadFromEventsGo : Nat → List XmlEvent → Registry → Except String Registry
  | 0, _, reg => Except.ok reg
  | _ + 1, [], reg => Except.ok reg
  | n + 1, e :: rest, reg =>
    match fromEventsGo (e :: rest) [] with
    | (ParseOut.ok t, rest') => loadFromEventsGo n rest' (insertTemplate reg t)
    | (ParseOut.err _, rest') => loadFromEventsGo n rest' reg
    | (ParseOut.panicked v, _) => Except.error v

/-- `TemplateSubSystem::load_templates_from_file` (`lib.rs` lines 139-152)
over the event stream of the file: skip the first event — the wrapper
element's start, `events.next(); // skip root` — then repeatedly parse and
insert top-level templates until the stream is exhausted. -/
def loadTemplatesFromEvents (evs : List XmlEvent) (reg : Registry) : Except String Registry :=
  loadFromEventsGo (evs.drop 1).length (evs.drop 1) reg

/-- Outcome of `TemplateSubSystem::load_templates`: a returned `Result`
(`ok`/`err`), or a panic (the `unwrap` on `Template::from_string`, a
property-expression panic, or an abort inside `load_templates_from_file`). -/
inductive LoadOut where
  | ok (reg : Registry)
  | err (e : PropTranslateErr)
  | panicked (msg : String)

/-- The loop of `TemplateSubSystem::load_templates` (`lib.rs` lines
155-170) over the elements of the directive array.  `fs` is the modelled
external file system, mapping a path to the event stream the tokenizer
produces for that file's contents; `root` is the subsystem's `root_path`,
and path resolution (`root_path.join`) is modelled as path concatenation. -/
def loadTemplatesGo (fs : String → List XmlEvent) (root : String) :
    List PropNode → Registry → LoadOut
  | [], reg => LoadOut.ok reg
  | pn :: rest, reg =>
    match pn.as_transform with
    | Except.error e => LoadOut.err e
    | Except.ok (nm, arg) =>
      if nm == "template" then
        match arg.as_string with
        | Except.error e => LoadOut.err e
        | Except.ok str =>
          match fromStringLib str with
          | ParseOut.ok t => loadTemplatesGo fs root rest (insertTemplate reg t)
          | ParseOut.err m => LoadOut.panicked m
          | ParseOut.panicked v => LoadOut.panicked v
      else if nm == "templates_from_file" then
        match arg.as_string with
        | Except.error e => LoadOut.err e
        | Except.ok f =>
          match loadTemplatesFromEvents (fs (root ++ "/" ++ f)) reg with
          | Except.ok reg' => loadTemplatesGo fs root rest reg'
          | Except.error v => LoadOut.panicked v
      else LoadOut.err (PropTranslateErr.unrecognizedPropTransform nm)

/-- `TemplateSubSystem::load_templates` (`lib.rs` lines 153-172): the
directive value must be an array of named transforms; `template` parses its
string argument as one template and inserts it, `templates_from_file`
resolves the path against the root directory and stream-inserts the file's
templates, and any other name is an unrecognized-directive error. -/
def loadTemplates (fs : String → List XmlEvent) (root : String) (reg : Registry)
    (node : PropNode) : LoadOut :=
  match node.as_array with
  | Except.error e => LoadOut.err e
  | Except.ok ns => loadTemplatesGo fs root ns reg

/-- The type name the store records for an entity. -/
def typeOf (s : Store) (e : Nat) : String :=
  ((s.ents.find? (fun en => en.id == e)).map (fun en => en.ty)).getD ""

/-- The properties of an entity, in insertion order. -/
def propsOf (s : Store) (e : Nat) : List (String × PropNode) :=
  (s.props.filter (fun p => p.ent == e)).map (fun p => (p.key, p.value))

/-- The children of an entity, in creation order. -/
def childrenOf (s : Store) (e : Nat) : List Nat :=
  (s.ents.filter (fun en => en.parent == e)).map (fun en => en.id)

/-- The structural content of an entity subtree — type name, properties and
children, with entity identifiers erased. -/
inductive ETree where
  | node (ty : String) (props : List (String × PropNode)) (children : List ETree)

/-- The entity subtree rooted at `e`, extracted to the given depth. -/
def extractF : Nat → Store → Nat → ETree
  | 0, s, e => ETree.node (typeOf s e) (propsOf s e) []
  | d + 1, s, e => ETree.node (typeOf s e) (propsOf s e) ((childrenOf s e).map (extractF d s))

/-- A fresh entity: its identifier is below the allocation counter and
appears in no entity or property record of the store. -/
def FreshIn (s : Store) (e : Nat) : Prop :=
  e < s.nextId ∧ (∀ en ∈ s.ents, en.id ≠ e ∧ en.parent ≠ e) ∧ ∀ p ∈ s.props, p.ent ≠ e

/-- The transposition of two entity identifiers. -/
def swapId (a b x : Nat) : Nat :=
  if x = a then b else if x = b then a else x

/-- Rename the entity identifiers of an entity record. -/
def mapEnt (f : Nat → Nat) (en : Ent) : Ent :=
  ⟨f en.id, f en.parent, en.ty⟩

/-- Rename the entity identifier of a property record. -/
def mapPropEntry (f : Nat → Nat) (p : PropEntry) : PropEntry :=
  ⟨f p.ent, p.key, p.value⟩

/-- Rename all entity identifiers of a store. -/
def mapStore (f : Nat → Nat) (s : Store) : Store :=
  ⟨s.nextId, s.ents.map (mapEnt f), s.props.map (mapPropEntry f)⟩

/-- Rename the entity identifiers of a recorded store operation. -/
def mapOp (f : Nat → Nat) : Op → Op
  | Op.setOp e k v => Op.setOp (f e) k v
  | Op.newEntity p i ty => Op.newEntity (f p) (f i) ty

/-- The stopping condition of a `from_event_reader` run: a template was
returned, an end tag popped an empty stack, the stream was exhausted (with
the stack's emptiness recorded), a tokenizer error arrived, or a
property-expression parse panicked. -/
inductive StopReason where
  | returned
  | emptyPop
  | exhausted (stackNonEmpty : Bool)
  | xmlError
  | panicStop
deriving DecidableEq

/-- How a `from_event_reader` run over the given events and stack stops;
mirrors the recursion of `fromEventsGo`. -/
def parseStop : List XmlEvent → List Template → StopReason
  | [], stack => StopReason.exhausted (!stack.isEmpty)
  | e :: rest, stack =>
    match e with
    | XmlEvent.startElement n attrs =>
      match buildStart n attrs with
      | StartResult.ok t => parseStop rest (t :: stack)
      | StartResult.panicked _ => StopReason.panicStop
    | XmlEvent.endElement _ =>
      match stack with
      | [] => StopReason.emptyPop
      | _ :: [] => StopReason.returned
      | t :: p :: ps => parseStop rest (p.addChild t :: ps)
    | XmlEvent.errorEvent _ => StopReason.xmlError
    | XmlEvent.other => parseStop rest stack

/-- Successive streaming calls of `from_event_reader` parse the event list
into the given templates, leaving the given remainder. -/
def ChainParses : List XmlEvent → List Template → List XmlEvent → Prop
  | evs, [], rest => evs = rest
  | evs, t :: ts, rest =>
    ∃ mid, fromEventsGo evs [] = (ParseOut.ok t, mid) ∧ ChainParses mid ts rest

/-- Every property present in the first store is present in the second with
the same value. -/
def PropsPreserved (s s' : Store) : Prop :=
  ∀ e k, hasProp s e k = true → hasProp s' e k = true ∧ getProp s' e k = getProp s e k

/-- Whether a recorded operation writes the given property of the given
entity. -/
def isWriteTo (e : Nat) (k : String) : Op → Bool
  | Op.setOp e' k' _ => e' == e && k' == k
  | Op.newEntity _ _ _ => false

/-- Full specification of one (partial) `apply` run from `s` to `s'` with
trace `tr`: existing properties are preserved with their values, every
recorded write targets a key absent when the run started, every written
value stands at the end of the run, and no (entity, key) pair is written
more than once — so a key set by an earlier phase of the same run (such as
the inheritance step) is never written again by a later phase. -/
def RunSpec (s s' : Store) (tr : List Op) : Prop :=
  PropsPreserved s s' ∧
  (∀ e k v, Op.setOp e k v ∈ tr → hasProp s e k = false) ∧
  (∀ e k v, Op.setOp e k v ∈ tr → getProp s' e k = some v) ∧
  (∀ e k, tr.countP (isWriteTo e k) ≤ 1)

/-- Whether an `Except` result is a success. -/
def exceptIsOk {ε α : Type} : Except ε α → Bool
  | Except.ok _ => true
  | Except.error _ => false

/-- Fixture: the parsed `<Stone x="5"><Candle/></Stone>` template. -/
def stoneFx : Template :=
  Template.mk ("Stone") none [("x", PropNode.integer 5)] [Template.mk ("Candle") none [] []]

/-- Fixture: a store holding one `Stone` entity that already has `x = 7`. -/
def stoneStore : Store :=
  ⟨1, [⟨0, 0, "Stone"⟩], [⟨0, "x", PropNode.integer 7⟩]⟩

/-- Fixture: `stoneStore` after applying `stoneFx` to entity 0. -/
def stoneStoreOut : Store :=
  ⟨2, [⟨0, 0, "Stone"⟩, ⟨1, 0, "Candle"⟩], [⟨0, "x", PropNode.integer 7⟩]⟩

/-- Fixture: the parsed `<Rock x="5"/>` template. -/
def rockFx : Template :=
  Template.mk ("Rock") none [("x", PropNode.integer 5)] []

/-- Fixture: a second template with type name `Rock`, `<Rock y="2"/>`. -/
def rockFx2 : Template :=
  Template.mk ("Rock") none [("y", PropNode.integer 2)] []

/-- Fixture: the parsed `<Granit inherits="Rock" y="2"/>` template. -/
def granitFx : Template :=
  Template.mk ("Granit") (some ("Rock")) [("y", PropNode.integer 2)] []

/-- Fixture: a registry holding `Rock` and `Granit`. -/
def regRG : Registry :=
  [("Rock", rockFx), ("Granit", granitFx)]

/-- Fixture: a derived template whose own `x` collides with its `Rock`
base's `x`, `<Granit inherits="Rock" x="9" y="2"/>`. -/
def granitOv : Template :=
  Template.mk ("Granit") (some ("Rock"))
    [("x", PropNode.integer 9), ("y", PropNode.integer 2)] []

/-- Fixture: a registry holding `Rock` and the colliding `Granit`. -/
def regOv : Registry :=
  [("Rock", rockFx), ("Granit", granitOv)]

/-- Fixture: a store holding one fresh `Granit` entity with no properties. -/
def freshStore : Store :=
  ⟨1, [⟨0, 0, "Granit"⟩], []⟩

/-- Fixture: `freshStore` after applying `Granit` through its `Rock` base. -/
def granitStoreOut : Store :=
  ⟨1, [⟨0, 0, "Granit"⟩], [⟨0, "x", PropNode.integer 5⟩, ⟨0, "y", PropNode.integer 2⟩]⟩

/-- Fixture: the operation trace of applying `Granit` to `freshStore`. -/
def granitTrace : List Op :=
  [Op.setOp 0 ("x") (PropNode.integer 5), Op.setOp 0 ("y") (PropNode.integer 2)]

/-- Fixture: the parsed `<Stone/>` template. -/
def stonePlain : Template :=
  Template.mk ("Stone") none [] []

/-- Fixture: the events between the wrapper's start and end for a file
holding the sibling templates `<Rock x="5"/>` and `<Stone/>`. -/
def wrapEvs : List XmlEvent :=
  [XmlEvent.startElement ("Rock") [("x", "5")], XmlEvent.endElement ("Rock"),
   XmlEvent.startElement ("Stone") [], XmlEvent.endElement ("Stone"),
   XmlEvent.endElement ("Templates")]

/-- Fixture: an empty modelled file system. -/
def fs0 : String → List XmlEvent := fun _ => []

/-- Fixture: a store in which entities 1 and 2 are both fresh. -/
def detS : Store := ⟨3, [⟨0, 0, "Root"⟩], []⟩

/-- Fixture: `detS` after applying `stoneFx` to fresh entity 1. -/
def detSA : Store :=
  ⟨4, [⟨0, 0, "Root"⟩, ⟨3, 1, "Candle"⟩], [⟨1, "x", PropNode.integer 5⟩]⟩

/-- Fixture: `detS` after applying `stoneFx` to fresh entity 2. -/
def detSB : Store :=
  ⟨4, [⟨0, 0, "Root"⟩, ⟨3, 2, "Candle"⟩], [⟨2, "x", PropNode.integer 5⟩]⟩

/-- Fixture: the trace of applying `stoneFx` to fresh entity 1 of `detS`. -/
def detTrA : List Op :=
  [Op.setOp 1 ("x") (PropNode.integer 5), Op.newEntity 1 3 ("Candle")]

/-- Fixture: the trace of applying `stoneFx` to fresh entity 2 of `detS`. -/
def detTrB : List Op :=
  [Op.setOp 2 ("x") (PropNode.integer 5), Op.newEntity 2 3 ("Candle")]

/- ------------------------------------------------------------------ -/
/- Theorems.                                                          -/
/- ------------------------------------------------------------------ -/

theorem pp_refl (s : Store) : PropsPreserved s s :=
  fun _ _ h => ⟨h, rfl⟩

theorem pp_trans {a b c : Store} (h1 : PropsPreserved a b) (h2 : PropsPreserved b c) :
    PropsPreserved a c := by
  intro e k ha
  obtain ⟨hb, gb⟩ := h1 e k ha
  obtain ⟨hc, gc⟩ := h2 e k hb
  exact ⟨hc, gc.trans gb⟩

theorem pp_not_has {s s' : Store} (hpp : PropsPreserved s s') {e : Nat} {k : String}
    (h : hasProp s' e k = false) : hasProp s e k = false := by
  cases hb : hasProp s e k with
  | false => rfl
  | true => rw [(hpp e k hb).1] at h; cases h

theorem hasProp_find {s : Store} {e : Nat} {k : String} (h : hasProp s e k = true) :
    ∃ q, s.props.find? (fun p => p.ent == e && p.key == k) = some q := by
  have h2 : ∃ x ∈ s.props, (fun p : PropEntry => p.ent == e && p.key == k) x = true :=
    List.any_eq_true.mp h
  have h3 := List.find?_isSome.mpr h2
  exact Option.isSome_iff_exists.mp h3

theorem setProp_not_has {s : Store} {e : Nat} {k : String} {v : PropNode}
    (h : hasProp s e k = false) :
    setProp s e k v = { s with props := s.props ++ [⟨e, k, v⟩] } := by
  simp [setProp, h]

theorem pp_setProp {s : Store} {e : Nat} {k : String} {v : PropNode}
    (h : hasProp s e k = false) : PropsPreserved s (setProp s e k v) := by
  intro e0 k0 h0
  rw [setProp_not_has h]
  constructor
  · simp only [hasProp, List.any_append] at h0 ⊢
    rw [h0]
    rfl
  · obtain ⟨q, hq⟩ := hasProp_find h0
    simp only [getProp, List.find?_append, hq]
    rfl

theorem pp_appendEntity (s : Store) (p : Nat) (ty : String) :
    PropsPreserved s (appendEntity s p ty).1 :=
  fun _ _ h => ⟨h, rfl⟩

theorem getProp_some_hasProp {s : Store} {e : Nat} {k : String} {v : PropNode}
    (h : getProp s e k = some v) : hasProp s e k = true := by
  simp only [getProp] at h
  cases hf : s.props.find? (fun p => p.ent == e && p.key == k) with
  | none => rw [hf] at h; cases h
  | some q =>
    have hm := List.mem_of_find?_eq_some hf
    have hp := List.find?_some hf
    exact List.any_eq_true.mpr ⟨q, hm, hp⟩

theorem isWriteTo_eq {e : Nat} {k : String} {o : Op} (h : isWriteTo e k o = true) :
    ∃ v, o = Op.setOp e k v := by
  cases o with
  | setOp e' k' v =>
    simp only [isWriteTo, Bool.and_eq_true, beq_iff_eq] at h
    exact ⟨v, by rw [h.1, h.2]⟩
  | newEntity p i ty => cases h

theorem getProp_setProp_new {s : Store} {e : Nat} {k : String} {v : PropNode}
    (h : hasProp s e k = false) : getProp (setProp s e k v) e k = some v := by
  rw [setProp_not_has h]
  have hnone : s.props.find? (fun p => p.ent == e && p.key == k) = none := by
    rw [List.find?_eq_none]
    intro x hx hpx
    have h1 : s.props.any (fun p => p.ent == e && p.key == k) = true :=
      List.any_eq_true.mpr ⟨x, hx, hpx⟩
    have h2 : s.props.any (fun p => p.ent == e && p.key == k) = false := h
    rw [h1] at h2
    cases h2
  simp [getProp, List.find?_append, hnone, List.find?_cons]

theorem runSpec_refl (s : Store) : RunSpec s s [] := by
  refine ⟨pp_refl s, ?_, ?_, ?_⟩
  · intro e k v hm; simp at hm
  · intro e k v hm; simp at hm
  · intro e k; simp

theorem runSpec_comp {s s1 s' : Store} {trA trB : List Op}
    (hA : RunSpec s s1 trA) (hB : RunSpec s1 s' trB) : RunSpec s s' (trA ++ trB) := by
  obtain ⟨hA1, hA2, hA3, hA4⟩ := hA
  obtain ⟨hB1, hB2, hB3, hB4⟩ := hB
  refine ⟨pp_trans hA1 hB1, ?_, ?_, ?_⟩
  · intro e k v hm
    rcases List.mem_append.mp hm with hm | hm
    · exact hA2 e k v hm
    · exact pp_not_has hA1 (hB2 e k v hm)
  · intro e k v hm
    rcases List.mem_append.mp hm with hm | hm
    · have h3 := hA3 e k v hm
      have hh : hasProp s1 e k = true := getProp_some_hasProp h3
      rw [(hB1 e k hh).2, h3]
    · exact hB3 e k v hm
  · intro e k
    rw [List.countP_append]
    by_cases hc : 0 < trA.countP (isWriteTo e k)
    · obtain ⟨o, ho, hp⟩ := List.countP_pos_iff.mp hc
      obtain ⟨v, rfl⟩ := isWriteTo_eq hp
      have hh1 : hasProp s1 e k = true := getProp_some_hasProp (hA3 e k v ho)
      have hB0 : trB.countP (isWriteTo e k) = 0 := by
        rw [List.countP_eq_zero]
        intro o' ho' hp'
        obtain ⟨v', rfl⟩ := isWriteTo_eq hp'
        have hfalse := hB2 e k v' ho'
        rw [hh1] at hfalse
        cases hfalse
      have h4 := hA4 e k
      omega
    · have h0 : trA.countP (isWriteTo e k) = 0 := by omega
      have h4 := hB4 e k
      omega

theorem runSpec_setProp {s : Store} {e : Nat} {k : String} {v : PropNode}
    (h : hasProp s e k = false) : RunSpec s (setProp s e k v) [Op.setOp e k v] := by
  refine ⟨pp_setProp h, ?_, ?_, ?_⟩
  · intro e0 k0 v0 hm
    simp only [List.mem_singleton, Op.setOp.injEq] at hm
    obtain ⟨he, hkk, _⟩ := hm
    rw [he, hkk]
    exact h
  · intro e0 k0 v0 hm
    simp only [List.mem_singleton, Op.setOp.injEq] at hm
    obtain ⟨he, hkk, hv⟩ := hm
    rw [he, hkk, hv]
    exact getProp_setProp_new h
  · intro e0 k0
    simpa using List.countP_le_length (isWriteTo e0 k0)

theorem runSpec_newEntity (s : Store) (p : Nat) (ty : String) :
    RunSpec s (appendEntity s p ty).1 [Op.newEntity p (appendEntity s p ty).2 ty] := by
  refine ⟨pp_appendEntity s p ty, ?_, ?_, ?_⟩
  · intro e k v hm; simp at hm
  · intro e k v hm; simp at hm
  · intro e k; simp [List.countP_cons, isWriteTo]

theorem applyProps_runSpec (e : Nat) : ∀ (l : List (String × PropNode)) (s : Store),
    RunSpec s (applyProps e l s).1 (applyProps e l s).2 := by
  intro l
  induction l with
  | nil => intro s; exact runSpec_refl s
  | cons kv rest ih =>
    intro s
    obtain ⟨k, v⟩ := kv
    cases hk : hasProp s e k with
    | true =>
      simp only [applyProps, hk, if_true]
      exact ih s
    | false =>
      simp only [applyProps, hk, Bool.false_eq_true, if_false]
      have hcomp := runSpec_comp (runSpec_setProp hk) (ih (setProp s e k v))
      rw [List.singleton_append] at hcomp
      exact hcomp

theorem applyChildrenGo_runSpec (ap : Template → Nat → Store → Option (Store × List Op))
    (hap : ∀ c e' s' out', ap c e' s' = some out' → RunSpec s' out'.1 out'.2)
    (e : Nat) : ∀ (cs : List Template) (s : Store) (out : Store × List Op),
    applyChildrenGo ap e cs s = some out → RunSpec s out.1 out.2 := by
  intro cs
  induction cs with
  | nil =>
    intro s out h
    simp only [applyChildrenGo, Option.some.injEq] at h
    rw [← h]
    exact runSpec_refl s
  | cons c cs ihc =>
    intro s out h
    simp only [applyChildrenGo] at h
    cases hap1 : ap c (appendEntity s e c.type_name).2 (appendEntity s e c.type_name).1 with
    | none => rw [hap1] at h; cases h
    | some out2 =>
      obtain ⟨s2, ops2⟩ := out2
      rw [hap1] at h
      simp only [] at h
      cases hch : applyChildrenGo ap e cs s2 with
      | none => rw [hch] at h; cases h
      | some out3 =>
        obtain ⟨s3, ops3⟩ := out3
        rw [hch] at h
        simp only [Option.some.injEq] at h
        rw [← h]
        have h1 := hap c (appendEntity s e c.type_name).2 (appendEntity s e c.type_name).1
          (s2, ops2) hap1
        have h2 := ihc s2 (s3, ops3) hch
        have hcomp := runSpec_comp (runSpec_newEntity s e c.type_name)
          (runSpec_comp h1 h2)
        rw [List.singleton_append] at hcomp
        exact hcomp

theorem applyF_succ_eq (n : Nat) (t : Template) (reg : Registry) (e : Nat) (s : Store) :
    applyF (n + 1) t reg e s =
      match (match t.inherits with
             | some b =>
               match Registry.find reg b with
               | some bt => applyF n bt reg e s
               | none => some (s, ([] : List Op))
             | none => some (s, ([] : List Op))) with
      | none => none
      | some (s1, ops1) =>
        match applyOwn n t reg e s1 with
        | none => none
        | some (s3, opsOwn) => some (s3, ops1 ++ opsOwn) := by
  obtain ⟨tn, ti, tps, tcs⟩ := t
  simp only [applyF, applyOwn, Template.inherits, Template.properties, Template.children]
  cases hb : (match ti with
              | some b =>
                match Registry.find reg b with
                | some bt => applyF n bt reg e s
                | none => some (s, ([] : List Op))
              | none => some (s, ([] : List Op))) with
  | none => rfl
  | some p =>
    obtain ⟨s1, ops1⟩ := p
    simp only []
    cases hpr : applyProps e tps s1 with
    | mk s2 ops2 =>
      cases hch : applyChildrenGo (fun c e' s' => applyF n c reg e' s') e tcs s2 with
      | none => simp [hpr, hch]
      | some out3 =>
        obtain ⟨s3, ops3⟩ := out3
        simp [hpr, hch]

theorem applyOwn_runSpec (n : Nat) (t : Template) (reg : Registry) (e : Nat) (s : Store)
    (out : Store × List Op)
    (hih : ∀ t' e' s' out', applyF n t' reg e' s' = some out' → RunSpec s' out'.1 out'.2)
    (h : applyOwn n t reg e s = some out) : RunSpec s out.1 out.2 := by
  simp only [applyOwn] at h
  cases hpr : applyProps e t.properties s with
  | mk s2 ops2 =>
    rw [hpr] at h
    simp only [] at h
    cases hch : applyChildrenGo (fun c e' s' => applyF n c reg e' s') e t.children s2 with
    | none => rw [hch] at h; cases h
    | some out3 =>
      obtain ⟨s3, ops3⟩ := out3
      rw [hch] at h
      simp only [Option.some.injEq] at h
      rw [← h]
      have h1 := applyProps_runSpec e t.properties s
      rw [hpr] at h1
      have h2 := applyChildrenGo_runSpec (fun c e' s' => applyF n c reg e' s')
        (fun c e' s' out' => hih c e' s' out') e t.children s2 (s3, ops3) hch
      exact runSpec_comp h1 h2

theorem applyF_runSpec : ∀ (n : Nat) (t : Template) (reg : Registry) (e : Nat) (s : Store)
    (out : Store × List Op), applyF n t reg e s = some out → RunSpec s out.1 out.2 := by
  intro n
  induction n with
  | zero => intro t reg e s out h; cases h
  | succ n ih =>
    intro t reg e s out h
    rw [applyF_succ_eq] at h
    cases hb : (match t.inherits with
                | some b =>
                  match Registry.find reg b with
                  | some bt => applyF n bt reg e s
                  | none => some (s, ([] : List Op))
                | none => some (s, ([] : List Op))) with
    | none => rw [hb] at h; cases h
    | some p =>
      obtain ⟨s1, ops1⟩ := p
      rw [hb] at h
      simp only [] at h
      have hbase : RunSpec s s1 ops1 := by
        cases hti : t.inherits with
        | none =>
          rw [hti] at hb
          simp only [Option.some.injEq] at hb
          cases hb
          exact runSpec_refl s
        | some b =>
          rw [hti] at hb
          simp only [] at hb
          cases hf : Registry.find reg b with
          | none =>
            rw [hf] at hb
            simp only [Option.some.injEq] at hb
            cases hb
            exact runSpec_refl s
          | some bt =>
            rw [hf] at hb
            exact ih bt reg e s (s1, ops1) hb
      cases hown : applyOwn n t reg e s1 with
      | none => rw [hown] at h; cases h
      | some out2 =>
        obtain ⟨s3, opsOwn⟩ := out2
        rw [hown] at h
        simp only [Option.some.injEq] at h
        rw [← h]
        have h2 := applyOwn_runSpec n t reg e s1 (s3, opsOwn)
          (fun t' e' s' out' => ih t' reg e' s' out') hown
        exact runSpec_comp hbase h2

/-- C1: `apply` writes a property only when the store reports the key
absent at the moment of the write: every recorded write targets a key
absent from the initial store, no (entity, key) pair is written more than
once in the whole run — so a key already set by the inheritance step, or
by any earlier phase of the same run, is never written again by a later
phase — each written value stands in the final store (first write wins),
and every property any entity already had keeps its value, whether it was
set by the caller beforehand or by an earlier template application. -/
theorem apply_writes_only_missing_keys (n : Nat) (t : Template) (reg : Registry)
    (e : Nat) (s s' : Store) (tr : List Op)
    (h : applyF n t reg e s = some (s', tr)) :
    (∀ e0 k0 v0, Op.setOp e0 k0 v0 ∈ tr → hasProp s e0 k0 = false) ∧
    (∀ e0 k0, tr.countP (isWriteTo e0 k0) ≤ 1) ∧
    (∀ e0 k0 v0, Op.setOp e0 k0 v0 ∈ tr → getProp s' e0 k0 = some v0) ∧
    (∀ e0 k0, hasProp s e0 k0 = true → getProp s' e0 k0 = getProp s e0 k0) := by
  obtain ⟨h1, h2, h3, h4⟩ := applyF_runSpec n t reg e s (s', tr) h
  exact ⟨h2, h4, h3, fun e0 k0 hh => (h1 e0 k0 hh).2⟩

theorem apply_writes_only_missing_keys_witness :
    applyF 2 granitOv regOv 0 freshStore = some (granitStoreOut, granitTrace) ∧
    hasProp freshStore 0 ("x") = false ∧
    granitTrace.countP (isWriteTo 0 ("x")) ≤ 1 ∧
    getProp granitStoreOut 0 ("x") = some (PropNode.integer 5) ∧
    applyF 2 stoneFx [] 0 stoneStore = some (stoneStoreOut, [Op.newEntity 0 1 ("Candle")]) ∧
    hasProp stoneStore 0 ("x") = true ∧
    getProp stoneStoreOut 0 ("x") = getProp stoneStore 0 ("x") :=
  ⟨rfl, rfl,
    (apply_writes_only_missing_keys 2 granitOv regOv 0 freshStore granitStoreOut
      granitTrace rfl).2.1 0 "x",
    (apply_writes_only_missing_keys 2 granitOv regOv 0 freshStore granitStoreOut
      granitTrace rfl).2.2.1 0 "x" (PropNode.integer 5) (List.Mem.head _),
    rfl, rfl,
    (apply_writes_only_missing_keys 2 stoneFx [] 0 stoneStore stoneStoreOut
      [Op.newEntity 0 1 ("Candle")] rfl).2.2.2 0 "x" rfl⟩

/-- C2: when the `inherits` name is found in the registry, `apply` first
recursively applies the base template to the same entity with the same
registry, and only afterwards runs the template's own property and children
loops: the run decomposes into the base's full run followed by the own
part, and the operation trace is the base's trace followed by the own
trace. -/
theorem apply_inherits_base_first (n : Nat) (t B : Template) (reg : Registry)
    (e : Nat) (s s' : Store) (tr : List Op) (b : String)
    (hib : t.inherits = some b) (hfind : Registry.find reg b = some B)
    (h : applyF (n + 1) t reg e s = some (s', tr)) :
    ∃ s1 tr1 tr2, applyF n B reg e s = some (s1, tr1) ∧
      applyOwn n t reg e s1 = some (s', tr2) ∧ tr = tr1 ++ tr2 := by
  obtain ⟨tn, ti, tps, tcs⟩ := t
  simp only [Template.inherits] at hib
  subst hib
  simp only [applyF, Template.inherits, Template.properties, Template.children, hfind] at h
  cases hbase : applyF n B reg e s with
  | none => rw [hbase] at h; cases h
  | some out =>
    obtain ⟨s1, ops1⟩ := out
    rw [hbase] at h
    simp only [] at h
    cases hpr : applyProps e tps s1 with
    | mk s2 ops2 =>
      rw [hpr] at h
      simp only [] at h
      cases hch : applyChildrenGo (fun c e' s' => applyF n c reg e' s') e tcs s2 with
      | none => rw [hch] at h; cases h
      | some out3 =>
        obtain ⟨s3, ops3⟩ := out3
        rw [hch] at h
        simp only [Option.some.injEq, Prod.mk.injEq] at h
        obtain ⟨hs, ht⟩ := h
        refine ⟨s1, ops1, ops2 ++ ops3, rfl, ?_, ?_⟩
        · simp only [applyOwn, Template.properties, Template.children, hpr, hch, hs]
        · rw [ht]

theorem apply_inherits_base_first_witness :
    granitFx.inherits = some ("Rock") ∧ Registry.find regRG ("Rock") = some rockFx ∧
      applyF 2 granitFx regRG 0 freshStore = some (granitStoreOut, granitTrace) ∧
      ∃ s1 tr1 tr2, applyF 1 rockFx regRG 0 freshStore = some (s1, tr1) ∧
        applyOwn 1 granitFx regRG 0 s1 = some (granitStoreOut, tr2) ∧ granitTrace = tr1 ++ tr2 :=
  ⟨rfl, rfl, rfl,
    apply_inherits_base_first 1 granitFx rockFx regRG 0 freshStore granitStoreOut
      granitTrace "Rock" rfl rfl rfl⟩

/-- C3: parsing `<Stone x="5"><Candle/></Stone>` with `from_string`
succeeds and returns exactly the `Stone` template with no inheritance, the
single integer property `x = 5` and the single childless, property-less
`Candle` child. -/
theorem from_string_stone_example :
    Template.fromString ("<Stone x=\"5\"><Candle/></Stone>") =
      ParseOut.ok (Template.mk ("Stone") none [("x", PropNode.integer 5)]
        [Template.mk ("Candle") none [] []]) := rfl

/-- C4: when the `inherits` name is absent from the registry the
inheritance step is a silent no-op: `apply` raises no error, writes
nothing in that step, and behaves exactly as it would on the same template
with no `inherits` field. -/
theorem apply_missing_base_silent_noop (n : Nat) (t : Template) (reg : Registry)
    (e : Nat) (s : Store) (b : String)
    (hib : t.inherits = some b) (hnf : Registry.find reg b = none) :
    applyF n t reg e s =
      applyF n (Template.mk t.type_name none t.properties t.children) reg e s := by
  obtain ⟨tn, ti, tps, tcs⟩ := t
  simp only [Template.inherits] at hib
  subst hib
  cases n with
  | zero => rfl
  | succ n =>
    simp only [applyF, Template.inherits, Template.properties, Template.children,
      Template.type_name, hnf]

theorem apply_missing_base_silent_noop_witness :
    granitFx.inherits = some ("Rock") ∧ Registry.find ([] : Registry) ("Rock") = none ∧
      applyF 2 granitFx [] 0 freshStore =
        applyF 2 (Template.mk (granitFx.type_name) none (granitFx.properties)
          (granitFx.children)) [] 0 freshStore :=
  ⟨rfl, rfl, apply_missing_base_silent_noop 2 granitFx [] 0 freshStore "Rock" rfl rfl⟩

/-- C5 counterexample: the empty event stream makes `from_event_reader`
fail with the "unbalanced tree" error even though no end tag popped an
empty stack and the stream was not exhausted with a non-empty stack, so
those two situations are not the only ones producing this error. -/
theorem from_event_reader_unbalanced_empty_stream_cex :
    (fromEventReader []).1 = ParseOut.err ("Unbalanced xml tree") ∧
      parseStop [] [] ≠ StopReason.emptyPop ∧
      parseStop [] [] ≠ StopReason.exhausted true :=
  ⟨rfl, by decide, by decide⟩

/-- C5 (amended): `from_event_reader` fails with the fatal "unbalanced
tree" error exactly when an `EndElement` event arrives while the builder
stack is empty, or the event stream is exhausted before a template is
completed — whether or not the stack is still non-empty at that point; in
these cases no template is returned. -/
theorem from_event_reader_unbalanced_iff : ∀ (evs : List XmlEvent),
    ((fromEventReader evs).1 = ParseOut.err ("Unbalanced xml tree")) ↔
      (parseStop evs [] = StopReason.emptyPop ∨
        ∃ b, parseStop evs [] = StopReason.exhausted b) := by
  have main : ∀ (evs : List XmlEvent) (stack : List Template),
      ((fromEventsGo evs stack).1 = ParseOut.err ("Unbalanced xml tree")) ↔
        (parseStop evs stack = StopReason.emptyPop ∨
          ∃ b, parseStop evs stack = StopReason.exhausted b) := by
    intro evs
    induction evs with
    | nil =>
      intro stack
      simp [fromEventsGo, parseStop]
      exact eq_or_ne stack []
    | cons e rest ih =>
      intro stack
      cases e with
      | startElement n attrs =>
        cases hb : buildStart n attrs with
        | ok t => simp [fromEventsGo, parseStop, hb, ih]
        | panicked v => simp [fromEventsGo, parseStop, hb]
      | endElement nm =>
        cases stack with
        | nil => simp [fromEventsGo, parseStop]
        | cons t stack' =>
          cases stack' with
          | nil => simp [fromEventsGo, parseStop]
          | cons p ps => simp [fromEventsGo, parseStop, ih]
      | errorEvent m =>
        have hne : ("Xml error: " ++ m) ≠ ("Unbalanced xml tree") := by
          intro hcontra
          have h2 := congrArg String.data hcontra
          simp [String.append] at h2
        simp [fromEventsGo, parseStop, hne]
      | other => simp [fromEventsGo, parseStop, ih]
  intro evs
  exact main evs []

theorem collectProps_ok : ∀ (attrs : List (String × String)),
    (∀ kv ∈ attrs, kv.1 ≠ "inherits" → exceptIsOk (propnodeParse kv.2) = true) →
    collectProps attrs = Except.ok (attrs.filterMap
      (fun kv => if kv.1 == "inherits" then none
                 else (propnodeParse kv.2).toOption.map (fun nd => (kv.1, nd)))) := by
  intro attrs
  induction attrs with
  | nil => intro _; rfl
  | cons kv rest ih =>
    intro h
    obtain ⟨k, v⟩ := kv
    have hrest := ih (fun kv hm hne => h kv (List.mem_cons_of_mem _ hm) hne)
    by_cases hk : k = "inherits"
    · subst hk
      simp [collectProps, hrest]
    · have hv := h (k, v) (List.mem_cons_self _ _) hk
      cases hpv : propnodeParse v with
      | error msg => rw [hpv] at hv; cases hv
      | ok nd =>
        have hkb : (k == "inherits") = false := beq_eq_false_iff_ne.mpr hk
        simp [collectProps, hkb, hpv, hrest, Except.toOption, List.filterMap_cons, hk]

theorem collectProps_err : ∀ (pre : List (String × String)) (k v : String)
    (post : List (String × String)),
    (∀ kv ∈ pre, kv.1 ≠ "inherits" → exceptIsOk (propnodeParse kv.2) = true) →
    k ≠ "inherits" → exceptIsOk (propnodeParse v) = false →
    collectProps (pre ++ (k, v) :: post) = Except.error v := by
  intro pre
  induction pre with
  | nil =>
    intro k v post _ hk hv
    have hkb : (k == "inherits") = false := beq_eq_false_iff_ne.mpr hk
    cases hpv : propnodeParse v with
    | ok nd => rw [hpv] at hv; cases hv
    | error msg => simp [collectProps, hkb, hpv]
  | cons kv pre ih =>
    intro k v post h hk hv
    obtain ⟨k', v'⟩ := kv
    have hrest := ih k v post (fun kv hm hne => h kv (List.mem_cons_of_mem _ hm) hne) hk hv
    by_cases hk' : k' = "inherits"
    · subst hk'
      simp [collectProps, hrest]
    · have hv' := h (k', v') (List.mem_cons_self _ _) hk'
      cases hpv' : propnodeParse v' with
      | error msg => rw [hpv'] at hv'; cases hv'
      | ok nd =>
        have hkb' : (k' == "inherits") = false := beq_eq_false_iff_ne.mpr hk'
        simp [collectProps, hkb', hpv', hrest]

/-- C6: on a `StartElement` event, the first attribute named `inherits` is
captured as the new builder's inheritance reference and every attribute
named `inherits` is excluded from the property list; every other
attribute's string value goes through the property-expression parser, the
results appended in attribute order; and the builder is pushed with no
children and nothing yielded.  When a non-`inherits` attribute fails to
parse (all earlier ones parsing), the event is a fatal error carrying that
offending attribute string. -/
theorem parse_event_start_element_attrs (stack : List Template) (n : String)
    (attrs : List (String × String)) :
    ((∀ kv ∈ attrs, kv.1 ≠ "inherits" → exceptIsOk (propnodeParse kv.2) = true) →
      parse_event stack (XmlEvent.startElement n attrs) =
        (EventStep.cont,
          Template.mk n ((attrs.find? (fun a => a.1 == "inherits")).map (fun a => a.2))
            (attrs.filterMap (fun kv => if kv.1 == "inherits" then none
              else (propnodeParse kv.2).toOption.map (fun nd => (kv.1, nd)))) [] :: stack)) ∧
    (∀ pre k v post, attrs = pre ++ (k, v) :: post →
      (∀ kv ∈ pre, kv.1 ≠ "inherits" → exceptIsOk (propnodeParse kv.2) = true) →
      k ≠ "inherits" → exceptIsOk (propnodeParse v) = false →
      parse_event stack (XmlEvent.startElement n attrs) = (EventStep.panicked v, stack)) := by
  constructor
  · intro h
    simp [parse_event, buildStart, collectProps_ok attrs h]
  · intro pre k v post heq hpre hk hv
    subst heq
    simp [parse_event, buildStart, collectProps_err pre k v post hpre hk hv]

theorem parse_event_start_element_attrs_witness :
    parse_event [] (XmlEvent.startElement ("El") [("inherits", "Rock"), ("x", "5")]) =
      (EventStep.cont,
        [Template.mk ("El") (some ("Rock")) [("x", PropNode.integer 5)] []]) ∧
    parse_event [] (XmlEvent.startElement ("El") [("x", "5"), ("y", "zzz")]) =
      (EventStep.panicked ("zzz"), []) :=
  ⟨(parse_event_start_element_attrs [] "El" [("inherits", "Rock"), ("x", "5")]).1
      (by decide),
    (parse_event_start_element_attrs [] "El" [("x", "5"), ("y", "zzz")]).2
      [("x", "5")] "y" "zzz" [] rfl (by decide) (by decide) (by decide)⟩

/-- C7: interpreting the templates directive fails — returning the error,
not succeeding — when the value is not an array (a translation error), when
an array element is not a transform (a translation error), when a
transform's name is neither `template` nor `templates_from_file` (an
unrecognized-directive error carrying that name), and when a recognized
transform's argument is not a string (a translation error). -/
theorem load_templates_error_cases (fs : String → List XmlEvent) (root : String)
    (reg : Registry) :
    (∀ node : PropNode, (∀ xs, node ≠ PropNode.array xs) →
        loadTemplates fs root reg node =
          LoadOut.err (PropTranslateErr.typeMismatch ("array"))) ∧
    (∀ pn rest, (∀ nm a, pn ≠ PropNode.transform nm a) →
        loadTemplates fs root reg (PropNode.array (pn :: rest)) =
          LoadOut.err (PropTranslateErr.typeMismatch ("transform"))) ∧
    (∀ nm a rest, nm ≠ "template" → nm ≠ "templates_from_file" →
        loadTemplates fs root reg (PropNode.array (PropNode.transform nm a :: rest)) =
          LoadOut.err (PropTranslateErr.unrecognizedPropTransform nm)) ∧
    (∀ nm a rest, (nm = "template" ∨ nm = "templates_from_file") →
        (∀ str, a ≠ PropNode.string str) →
        loadTemplates fs root reg (PropNode.array (PropNode.transform nm a :: rest)) =
          LoadOut.err (PropTranslateErr.typeMismatch ("string"))) := by
  refine ⟨?_, ?_, ?_, ?_⟩
  · intro node hne
    cases node with
    | array xs => exact absurd rfl (hne xs)
    | integer i => rfl
    | string s => rfl
    | transform nm a => rfl
  · intro pn rest hne
    cases pn with
    | transform nm a => exact absurd rfl (hne nm a)
    | integer i => rfl
    | string s => rfl
    | array xs => rfl
  · intro nm a rest h1 h2
    have hb1 : (nm == "template") = false := beq_eq_false_iff_ne.mpr h1
    have hb2 : (nm == "templates_from_file") = false := beq_eq_false_iff_ne.mpr h2
    simp [loadTemplates, loadTemplatesGo, PropNode.as_array, PropNode.as_transform, hb1, hb2]
  · intro nm a rest hnm hne
    rcases hnm with rfl | rfl <;> cases a <;>
      first
      | exact absurd rfl (hne _)
      | rfl

theorem load_templates_error_cases_witness :
    loadTemplates fs0 "" [] (PropNode.integer 3) =
      LoadOut.err (PropTranslateErr.typeMismatch ("array")) ∧
    loadTemplates fs0 "" [] (PropNode.array [PropNode.integer 3]) =
      LoadOut.err (PropTranslateErr.typeMismatch ("transform")) ∧
    loadTemplates fs0 "" [] (PropNode.array [PropNode.transform ("nope") (PropNode.integer 1)]) =
      LoadOut.err (PropTranslateErr.unrecognizedPropTransform ("nope")) ∧
    loadTemplates fs0 "" [] (PropNode.array [PropNode.transform ("template") (PropNode.integer 1)]) =
      LoadOut.err (PropTranslateErr.typeMismatch ("string")) :=
  ⟨(load_templates_error_cases fs0 "" []).1 (PropNode.integer 3)
      (fun xs h => PropNode.noConfusion h),
    (load_templates_error_cases fs0 "" []).2.1 (PropNode.integer 3) []
      (fun nm a h => PropNode.noConfusion h),
    (load_templates_error_cases fs0 "" []).2.2.1 "nope" (PropNode.integer 1) []
      (by decide) (by decide),
    (load_templates_error_cases fs0 "" []).2.2.2 "template" (PropNode.integer 1) []
      (Or.inl rfl) (fun str h => PropNode.noConfusion h)⟩

theorem fromEventsGo_consume : ∀ (evs : List XmlEvent) (stack : List Template),
    evs = [] ∨ (fromEventsGo evs stack).2.length < evs.length := by
  intro evs
  induction evs with
  | nil => intro _; exact Or.inl rfl
  | cons e rest ih =>
    intro stack
    refine Or.inr ?_
    cases e with
    | startElement n attrs =>
      cases hb : buildStart n attrs with
      | ok t =>
        rcases ih (t :: stack) with hnil | hlt
        · subst hnil; simp [fromEventsGo, hb]
        · simp only [fromEventsGo, hb, List.length_cons]
          exact Nat.lt_succ_of_lt hlt
      | panicked v => simp [fromEventsGo, hb]
    | endElement nm =>
      cases stack with
      | nil => simp [fromEventsGo]
      | cons t stack' =>
        cases stack' with
        | nil => simp [fromEventsGo]
        | cons p ps =>
          rcases ih (p.addChild t :: ps) with hnil | hlt
          · subst hnil; simp [fromEventsGo]
          · simp only [fromEventsGo, List.length_cons]
            exact Nat.lt_succ_of_lt hlt
    | errorEvent m => simp [fromEventsGo]
    | other =>
      rcases ih stack with hnil | hlt
      · subst hnil; simp [fromEventsGo]
      · simp only [fromEventsGo, List.length_cons]
        exact Nat.lt_succ_of_lt hlt

theorem loadFromEventsGo_nil : ∀ (f : Nat) (reg : Registry),
    loadFromEventsGo f [] reg = Except.ok reg := by
  intro f reg
  cases f with
  | zero => rfl
  | succ n => rfl

theorem loadFromEventsGo_congr : ∀ (L : Nat) (evs : List XmlEvent), evs.length ≤ L →
    ∀ (f1 f2 : Nat) (reg : Registry), evs.length ≤ f1 → evs.length ≤ f2 →
    loadFromEventsGo f1 evs reg = loadFromEventsGo f2 evs reg := by
  intro L
  induction L with
  | zero =>
    intro evs hL f1 f2 reg _ _
    have hnil : evs = [] := List.length_eq_zero.mp (Nat.le_zero.mp hL)
    subst hnil
    rw [loadFromEventsGo_nil, loadFromEventsGo_nil]
  | succ L ihL =>
    intro evs hL f1 f2 reg h1 h2
    cases evs with
    | nil => rw [loadFromEventsGo_nil, loadFromEventsGo_nil]
    | cons e rest =>
      obtain ⟨f1', rfl⟩ : ∃ f1', f1 = f1' + 1 := ⟨f1 - 1, by simp at h1; omega⟩
      obtain ⟨f2', rfl⟩ : ∃ f2', f2 = f2' + 1 := ⟨f2 - 1, by simp at h2; omega⟩
      have hlt : (fromEventsGo (e :: rest) []).2.length < (e :: rest).length := by
        rcases fromEventsGo_consume (e :: rest) [] with hnil | hlt'
        · cases hnil
        · exact hlt'
      simp only [loadFromEventsGo]
      cases hcons : fromEventsGo (e :: rest) [] with
      | mk po rest' =>
        rw [hcons] at hlt
        simp only [List.length_cons] at hlt hL h1 h2
        cases po with
        | ok t =>
          exact ihL rest' (by omega) f1' f2' (insertTemplate reg t) (by omega) (by omega)
        | err m =>
          exact ihL rest' (by omega) f1' f2' reg (by omega) (by omega)
        | panicked v => rfl

theorem loadGo_chain : ∀ (ts : List Template) (evs : List XmlEvent) (reg : Registry)
    (w : String), ChainParses evs ts [XmlEvent.endElement w] →
    loadFromEventsGo evs.length evs reg = Except.ok (ts.foldl insertTemplate reg) := by
  intro ts
  induction ts with
  | nil =>
    intro evs reg w h
    simp only [ChainParses] at h
    subst h
    rfl
  | cons t ts iht =>
    intro evs reg w h
    simp only [ChainParses] at h
    obtain ⟨mid, hparse, hchain⟩ := h
    cases evs with
    | nil =>
      rw [show fromEventsGo [] ([] : List Template) =
        (ParseOut.err ("Unbalanced xml tree"), []) from rfl] at hparse
      simp at hparse
    | cons e rest =>
      have hlt : mid.length < rest.length + 1 := by
        rcases fromEventsGo_consume (e :: rest) [] with hnil | hlt'
        · cases hnil
        · rw [hparse] at hlt'; simpa using hlt'
      simp only [List.length_cons, loadFromEventsGo, hparse]
      rw [loadFromEventsGo_congr rest.length mid (by omega) rest.length mid.length
        (insertTemplate reg t) (by omega) (le_refl _)]
      exact iht mid (insertTemplate reg t) w hchain

/-- C8: loading a wrapped multi-template file skips the wrapper element's
start event (the first event) and never pushes or pops the wrapper; each
immediate child of the wrapper is parsed as one independent top-level
template by a successive streaming `from_event_reader` call and inserted
into the registry under its type name, and the wrapper's end event
contributes no template. -/
theorem load_templates_from_file_wrapper_skipped (w : String)
    (attrs : List (String × String)) (ts : List Template) (evs : List XmlEvent)
    (reg : Registry) (h : ChainParses evs ts [XmlEvent.endElement w]) :
    loadTemplatesFromEvents (XmlEvent.startElement w attrs :: evs) reg =
      Except.ok (ts.foldl insertTemplate reg) := by
  simp only [loadTemplatesFromEvents, List.drop_one, List.tail_cons]
  exact loadGo_chain ts evs reg w h

theorem load_templates_from_file_wrapper_skipped_witness :
    ChainParses wrapEvs [rockFx, stonePlain] [XmlEvent.endElement ("Templates")] ∧
      loadTemplatesFromEvents (XmlEvent.startElement ("Templates") [] :: wrapEvs) [] =
        Except.ok [("Rock", rockFx), ("Stone", stonePlain)] := by
  have hchain : ChainParses wrapEvs [rockFx, stonePlain] [XmlEvent.endElement ("Templates")] := by
    refine ⟨[XmlEvent.startElement ("Stone") [], XmlEvent.endElement ("Stone"),
      XmlEvent.endElement ("Templates")], rfl, ?_⟩
    exact ⟨[XmlEvent.endElement ("Templates")], rfl, rfl⟩
  exact ⟨hchain, load_templates_from_file_wrapper_skipped "Templates" []
    [rockFx, stonePlain] wrapEvs [] hchain⟩

theorem find_insert : ∀ (reg : Registry) (k : String) (v : Template),
    Registry.find (Registry.insert reg k v) k = some v := by
  intro reg k v
  induction reg with
  | nil => simp [Registry.insert, Registry.find, List.find?]
  | cons p rest ih =>
    obtain ⟨k', v'⟩ := p
    cases hk : (k' == k) with
    | true => simp [Registry.insert, hk, Registry.find, List.find?]
    | false =>
      simp only [Registry.insert, hk, Bool.false_eq_true, if_false]
      simp only [Registry.find, List.find?, hk] at ih ⊢
      exact ih

/-- C9: inserting a template into the registry under an already-present
type name replaces the previous template without error: loading two
`template` directives whose templates share a type name succeeds, the
registry ends as two successive insertions, and looking the shared name up
afterwards finds exactly the most recently loaded template. -/
theorem registry_insert_last_wins (fs : String → List XmlEvent) (root : String)
    (reg : Registry) (s1 s2 : String) (t1 t2 : Template)
    (h1 : fromStringLib s1 = ParseOut.ok t1) (h2 : fromStringLib s2 = ParseOut.ok t2)
    (hn : t1.type_name = t2.type_name) :
    loadTemplates fs root reg (PropNode.array
        [PropNode.transform ("template") (PropNode.string s1),
         PropNode.transform ("template") (PropNode.string s2)]) =
      LoadOut.ok (insertTemplate (insertTemplate reg t1) t2) ∧
    Registry.find (insertTemplate (insertTemplate reg t1) t2) t1.type_name = some t2 := by
  constructor
  · simp [loadTemplates, loadTemplatesGo, PropNode.as_array, PropNode.as_transform,
      PropNode.as_string, h1, h2]
  · simp only [insertTemplate, hn]
    exact find_insert (Registry.insert reg t2.type_name t1) t2.type_name t2

theorem registry_insert_last_wins_witness :
    fromStringLib ("<Rock x=\"5\"/>") = ParseOut.ok rockFx ∧
    fromStringLib ("<Rock y=\"2\"/>") = ParseOut.ok rockFx2 ∧
    loadTemplates fs0 "" [] (PropNode.array
        [PropNode.transform ("template") (PropNode.string ("<Rock x=\"5\"/>")),
         PropNode.transform ("template") (PropNode.string ("<Rock y=\"2\"/>"))]) =
      LoadOut.ok (insertTemplate (insertTemplate [] rockFx) rockFx2) ∧
    Registry.find (insertTemplate (insertTemplate [] rockFx) rockFx2)
        (rockFx.type_name) = some rockFx2 :=
  ⟨rfl, rfl,
    (registry_insert_last_wins fs0 "" [] "<Rock x=\"5\"/>" "<Rock y=\"2\"/>"
      rockFx rockFx2 rfl rfl rfl).1,
    (registry_insert_last_wins fs0 "" [] "<Rock x=\"5\"/>" "<Rock y=\"2\"/>"
      rockFx rockFx2 rfl rfl rfl).2⟩

theorem swapId_inj (a b : Nat) : Function.Injective (swapId a b) := by
  intro x y h
  unfold swapId at h
  split_ifs at h <;> omega

theorem swapId_other {a b x : Nat} (hx1 : x ≠ a) (hx2 : x ≠ b) : swapId a b x = x := by
  simp [swapId, hx1, hx2]

theorem swapId_left (a b : Nat) : swapId a b a = b := by
  simp [swapId]

theorem beq_map_inj {f : Nat → Nat} (hinj : Function.Injective f) (u w : Nat) :
    (f u == f w) = (u == w) := by
  by_cases h : u = w
  · subst h; simp
  · have h2 : f u ≠ f w := fun hc => h (hinj hc)
    rw [beq_eq_false_iff_ne.mpr h, beq_eq_false_iff_ne.mpr h2]

theorem any_props_map {f : Nat → Nat} (hinj : Function.Injective f) (e : Nat) (k : String) :
    ∀ (l : List PropEntry),
    (l.map (mapPropEntry f)).any (fun p => p.ent == f e && p.key == k) =
      l.any (fun p => p.ent == e && p.key == k) := by
  intro l
  induction l with
  | nil => rfl
  | cons p l ih => simp only [List.map_cons, List.any_cons, mapPropEntry, ih,
      beq_map_inj hinj]

theorem hasProp_map {f : Nat → Nat} (hinj : Function.Injective f) (s : Store) (e : Nat)
    (k : String) : hasProp (mapStore f s) (f e) k = hasProp s e k := by
  simp only [hasProp, mapStore]
  exact any_props_map hinj e k s.props

theorem setProp_map {f : Nat → Nat} (hinj : Function.Injective f) (s : Store) (e : Nat)
    (k : String) (v : PropNode) :
    mapStore f (setProp s e k v) = setProp (mapStore f s) (f e) k v := by
  unfold setProp
  rw [hasProp_map hinj]
  cases hhp : hasProp s e k with
  | true =>
    simp only [mapStore, if_true]
    congr 1
    have : ∀ (l : List PropEntry),
        (l.map (fun p => if p.ent == e && p.key == k then { p with value := v } else p)).map
            (mapPropEntry f) =
          (l.map (mapPropEntry f)).map
            (fun p => if p.ent == f e && p.key == k then { p with value := v } else p) := by
      intro l
      induction l with
      | nil => rfl
      | cons p l ih =>
        simp only [List.map_cons, ih]
        congr 1
        rw [show ((mapPropEntry f p).ent == f e && (mapPropEntry f p).key == k) =
          (p.ent == e && p.key == k) from by
            simp only [mapPropEntry]; rw [beq_map_inj hinj]]
        cases hc : (p.ent == e && p.key == k) with
        | true => simp [mapPropEntry]
        | false => simp
    exact this s.props
  | false =>
    simp only [Bool.false_eq_true, if_false, mapStore, List.map_append, List.map_cons,
      List.map_nil, mapPropEntry]

theorem applyProps_nextId (e : Nat) : ∀ (l : List (String × PropNode)) (s : Store),
    (applyProps e l s).1.nextId = s.nextId := by
  intro l
  induction l with
  | nil => intro s; rfl
  | cons kv rest ih =>
    intro s
    obtain ⟨k, v⟩ := kv
    cases hk : hasProp s e k with
    | true => simp only [applyProps, hk, if_true]; exact ih s
    | false =>
      simp only [applyProps, hk, Bool.false_eq_true, if_false]
      have h2 := ih (setProp s e k v)
      have h3 : (setProp s e k v).nextId = s.nextId := by
        unfold setProp
        cases hasProp s e k <;> rfl
      rw [h2, h3]

theorem applyProps_map {f : Nat → Nat} (hinj : Function.Injective f) (e : Nat) :
    ∀ (l : List (String × PropNode)) (s : Store),
    applyProps (f e) l (mapStore f s) =
      (mapStore f (applyProps e l s).1, (applyProps e l s).2.map (mapOp f)) := by
  intro l
  induction l with
  | nil => intro s; rfl
  | cons kv rest ih =>
    intro s
    obtain ⟨k, v⟩ := kv
    cases hk : hasProp s e k with
    | true =>
      simp only [applyProps, hasProp_map hinj, hk, if_true]
      exact ih s
    | false =>
      simp only [applyProps, hasProp_map hinj, hk, Bool.false_eq_true, if_false]
      rw [← setProp_map hinj]
      rw [ih (setProp s e k v)]
      simp [mapOp]

theorem applyChildrenGo_nextId (ap : Template → Nat → Store → Option (Store × List Op))
    (hap : ∀ c e' s' out', ap c e' s' = some out' → s'.nextId ≤ out'.1.nextId) (e : Nat) :
    ∀ (cs : List Template) (s : Store) (out : Store × List Op),
    applyChildrenGo ap e cs s = some out → s.nextId ≤ out.1.nextId := by
  intro cs
  induction cs with
  | nil =>
    intro s out h
    simp only [applyChildrenGo, Option.some.injEq] at h
    rw [← h]
  | cons c cs ih =>
    intro s out h
    simp only [applyChildrenGo] at h
    cases hap1 : ap c (appendEntity s e c.type_name).2 (appendEntity s e c.type_name).1 with
    | none => rw [hap1] at h; cases h
    | some out2 =>
      obtain ⟨s2, ops2⟩ := out2
      rw [hap1] at h
      simp only [] at h
      cases hch : applyChildrenGo ap e cs s2 with
      | none => rw [hch] at h; cases h
      | some out3 =>
        obtain ⟨s3, ops3⟩ := out3
        rw [hch] at h
        simp only [Option.some.injEq] at h
        rw [← h]
        have ha : s.nextId + 1 = (appendEntity s e c.type_name).1.nextId := rfl
        have hb := hap c (appendEntity s e c.type_name).2 (appendEntity s e c.type_name).1
          (s2, ops2) hap1
        have hc := ih s2 (s3, ops3) hch
        simp only [] at hb hc ⊢
        omega

theorem applyOwn_nextId (n : Nat) (t : Template) (reg : Registry) (e : Nat) (s : Store)
    (out : Store × List Op)
    (hih : ∀ t' e' s' out', applyF n t' reg e' s' = some out' → s'.nextId ≤ out'.1.nextId)
    (h : applyOwn n t reg e s = some out) : s.nextId ≤ out.1.nextId := by
  simp only [applyOwn] at h
  cases hpr : applyProps e t.properties s with
  | mk s2 ops2 =>
    rw [hpr] at h
    simp only [] at h
    cases hch : applyChildrenGo (fun c e' s' => applyF n c reg e' s') e t.children s2 with
    | none => rw [hch] at h; cases h
    | some out3 =>
      obtain ⟨s3, ops3⟩ := out3
      rw [hch] at h
      simp only [Option.some.injEq] at h
      rw [← h]
      have h1 : s2.nextId = s.nextId := by
        have := applyProps_nextId e t.properties s
        rw [hpr] at this
        exact this
      have h2 := applyChildrenGo_nextId (fun c e' s' => applyF n c reg e' s')
        (fun c e' s' out' => hih c e' s' out') e t.children s2 (s3, ops3) hch
      simp only [] at h2 ⊢
      omega

theorem applyF_nextId : ∀ (n : Nat) (t : Template) (reg : Registry) (e : Nat) (s : Store)
    (out : Store × List Op), applyF n t reg e s = some out → s.nextId ≤ out.1.nextId := by
  intro n
  induction n with
  | zero => intro t reg e s out h; cases h
  | succ n ih =>
    intro t reg e s out h
    rw [applyF_succ_eq] at h
    cases hb : (match t.inherits with
                | some b =>
                  match Registry.find reg b with
                  | some bt => applyF n bt reg e s
                  | none => some (s, ([] : List Op))
                | none => some (s, ([] : List Op))) with
    | none => rw [hb] at h; cases h
    | some p =>
      obtain ⟨s1, ops1⟩ := p
      rw [hb] at h
      simp only [] at h
      have hbase : s.nextId ≤ s1.nextId := by
        cases hti : t.inherits with
        | none =>
          rw [hti] at hb
          simp only [Option.some.injEq] at hb
          cases hb
          exact le_refl _
        | some b =>
          rw [hti] at hb
          simp only [] at hb
          cases hf : Registry.find reg b with
          | none =>
            rw [hf] at hb
            simp only [Option.some.injEq] at hb
            cases hb
            exact le_refl _
          | some bt =>
            rw [hf] at hb
            exact ih bt reg e s (s1, ops1) hb
      cases hown : applyOwn n t reg e s1 with
      | none => rw [hown] at h; cases h
      | some out2 =>
        obtain ⟨s3, opsOwn⟩ := out2
        rw [hown] at h
        simp only [Option.some.injEq] at h
        rw [← h]
        have h2 := applyOwn_nextId n t reg e s1 (s3, opsOwn)
          (fun t' e' s' out' => ih t' reg e' s' out') hown
        simp only [] at h2 ⊢
        omega

theorem appendEntity_map {f : Nat → Nat} (s : Store) (p : Nat) (ty : String)
    (hfx : f s.nextId = s.nextId) :
    appendEntity (mapStore f s) (f p) ty =
      (mapStore f (appendEntity s p ty).1, (appendEntity s p ty).2) := by
  simp [appendEntity, mapStore, mapEnt, List.map_append, hfx]

theorem applyChildrenGo_map {f : Nat → Nat} (_hinj : Function.Injective f) (N : Nat)
    (hfix : ∀ x, N ≤ x → f x = x)
    (ap : Template → Nat → Store → Option (Store × List Op))
    (hapN : ∀ c e' s' out', ap c e' s' = some out' → Store.nextId s' ≤ out'.1.nextId)
    (hapEq : ∀ c e' (s' : Store), N ≤ s'.nextId →
      ap c (f e') (mapStore f s') =
        (ap c e' s').map (fun o => (mapStore f o.1, o.2.map (mapOp f))))
    (e : Nat) : ∀ (cs : List Template) (s : Store), N ≤ s.nextId →
    applyChildrenGo ap (f e) cs (mapStore f s) =
      (applyChildrenGo ap e cs s).map (fun o => (mapStore f o.1, o.2.map (mapOp f))) := by
  intro cs
  induction cs with
  | nil => intro s _; rfl
  | cons c cs ih =>
    intro s hN
    have hfx : f s.nextId = s.nextId := hfix _ hN
    simp only [applyChildrenGo, appendEntity_map s e c.type_name hfx]
    have hA1 : (appendEntity s e c.type_name).1.nextId = s.nextId + 1 := rfl
    have hA2 : (appendEntity s e c.type_name).2 = s.nextId := rfl
    have hfid : f (appendEntity s e c.type_name).2 = (appendEntity s e c.type_name).2 := by
      rw [hA2]; exact hfix s.nextId hN
    have hstep : ap c (appendEntity s e c.type_name).2
        (mapStore f (appendEntity s e c.type_name).1) =
        (ap c (appendEntity s e c.type_name).2 (appendEntity s e c.type_name).1).map
          (fun o => (mapStore f o.1, o.2.map (mapOp f))) := by
      have h3 := hapEq c (appendEntity s e c.type_name).2 (appendEntity s e c.type_name).1
        (by rw [hA1]; omega)
      rw [hfid] at h3
      exact h3
    rw [hstep]
    cases h2 : ap c (appendEntity s e c.type_name).2 (appendEntity s e c.type_name).1 with
    | none => rfl
    | some out2 =>
      obtain ⟨s2, ops2⟩ := out2
      simp only [Option.map_some']
      have hN2 : N ≤ s2.nextId := by
        have := hapN c (appendEntity s e c.type_name).2 (appendEntity s e c.type_name).1
          (s2, ops2) h2
        simp only [] at this
        rw [hA1] at this
        omega
      rw [ih s2 hN2]
      cases h3 : applyChildrenGo ap e cs s2 with
      | none => rfl
      | some out3 =>
        obtain ⟨s3, ops3⟩ := out3
        simp [mapOp, hfid, List.map_append]

theorem applyOwn_map {f : Nat → Nat} (hinj : Function.Injective f) (N : Nat)
    (hfix : ∀ x, N ≤ x → f x = x) (n : Nat) (reg : Registry)
    (hihN : ∀ t' e' s' out', applyF n t' reg e' s' = some out' →
      Store.nextId s' ≤ out'.1.nextId)
    (hihEq : ∀ t' e' (s' : Store), N ≤ s'.nextId →
      applyF n t' reg (f e') (mapStore f s') =
        (applyF n t' reg e' s').map (fun o => (mapStore f o.1, o.2.map (mapOp f))))
    (t : Template) (e : Nat) (s : Store) (hN : N ≤ s.nextId) :
    applyOwn n t reg (f e) (mapStore f s) =
      (applyOwn n t reg e s).map (fun o => (mapStore f o.1, o.2.map (mapOp f))) := by
  simp only [applyOwn, applyProps_map hinj]
  cases hpr : applyProps e t.properties s with
  | mk s2 ops2 =>
    simp only []
    have hN2 : N ≤ s2.nextId := by
      have := applyProps_nextId e t.properties s
      rw [hpr] at this
      simp only [] at this
      omega
    rw [applyChildrenGo_map hinj N hfix _
      (fun c e' s' out' h => hihN c e' s' out' h)
      (fun c e' s' h => hihEq c e' s' h) e t.children s2 hN2]
    cases hch : applyChildrenGo (fun c e' s' => applyF n c reg e' s') e t.children s2 with
    | none => rfl
    | some out3 =>
      obtain ⟨s3, ops3⟩ := out3
      simp [List.map_append]

theorem applyF_map {f : Nat → Nat} (hinj : Function.Injective f) (N : Nat)
    (hfix : ∀ x, N ≤ x → f x = x) :
    ∀ (n : Nat) (t : Template) (reg : Registry) (e : Nat) (s : Store), N ≤ s.nextId →
    applyF n t reg (f e) (mapStore f s) =
      (applyF n t reg e s).map (fun o => (mapStore f o.1, o.2.map (mapOp f))) := by
  intro n
  induction n with
  | zero => intro t reg e s _; rfl
  | succ n ih =>
    intro t reg e s hN
    rw [applyF_succ_eq, applyF_succ_eq]
    have hown : ∀ (s1 : Store), N ≤ s1.nextId →
        applyOwn n t reg (f e) (mapStore f s1) =
          (applyOwn n t reg e s1).map (fun o => (mapStore f o.1, o.2.map (mapOp f))) :=
      fun s1 hN1 => applyOwn_map hinj N hfix n reg
        (fun t' e' s' out' h => applyF_nextId n t' reg e' s' out' h)
        (fun t' e' s' h => ih t' reg e' s' h) t e s1 hN1
    cases hti : t.inherits with
    | none =>
      simp only []
      rw [hown s hN]
      cases ho : applyOwn n t reg e s with
      | none => rfl
      | some out2 =>
        obtain ⟨s3, opsOwn⟩ := out2
        simp
    | some b =>
      simp only []
      cases hf : Registry.find reg b with
      | none =>
        simp only []
        rw [hown s hN]
        cases ho : applyOwn n t reg e s with
        | none => rfl
        | some out2 =>
          obtain ⟨s3, opsOwn⟩ := out2
          simp
      | some bt =>
        simp only []
        rw [ih bt reg e s hN]
        cases hbase : applyF n bt reg e s with
        | none => rfl
        | some out1 =>
          obtain ⟨s1, ops1⟩ := out1
          simp only [Option.map_some']
          have hN1 : N ≤ s1.nextId := by
            have := applyF_nextId n bt reg e s (s1, ops1) hbase
            simp only [] at this
            omega
          rw [hown s1 hN1]
          cases ho : applyOwn n t reg e s1 with
          | none => rfl
          | some out2 =>
            obtain ⟨s3, opsOwn⟩ := out2
            simp [List.map_append]

theorem mapStore_swap_fresh (s : Store) (e1 e2 : Nat) (h1 : FreshIn s e1)
    (h2 : FreshIn s e2) : mapStore (swapId e1 e2) s = s := by
  obtain ⟨_, h1e, h1p⟩ := h1
  obtain ⟨_, h2e, h2p⟩ := h2
  obtain ⟨ni, ents, props⟩ := s
  simp only [mapStore]
  congr 1
  · rw [List.map_congr_left (g := id) ?_, List.map_id]
    intro en hm
    simp only [mapEnt, id]
    rw [swapId_other (h1e en hm).1 (h2e en hm).1,
      swapId_other (h1e en hm).2 (h2e en hm).2]
  · rw [List.map_congr_left (g := id) ?_, List.map_id]
    intro p hm
    simp only [mapPropEntry, id]
    rw [swapId_other (h1p p hm) (h2p p hm)]

theorem find_ent_map {f : Nat → Nat} (hinj : Function.Injective f) (e : Nat) :
    ∀ (l : List Ent),
    (l.map (mapEnt f)).find? (fun en => en.id == f e) =
      (l.find? (fun en => en.id == e)).map (mapEnt f) := by
  intro l
  induction l with
  | nil => rfl
  | cons en l ih =>
    have hc2 : ((mapEnt f en).id == f e) = (en.id == e) := by
      simp only [mapEnt]
      exact beq_map_inj hinj en.id e
    cases hc : (en.id == e) with
    | true =>
      rw [hc] at hc2
      simp [List.map_cons, List.find?_cons, hc, hc2]
    | false =>
      rw [hc] at hc2
      simp [List.map_cons, List.find?_cons, hc, hc2, ih]

theorem filter_props_map {f : Nat → Nat} (hinj : Function.Injective f) (e : Nat) :
    ∀ (l : List PropEntry),
    (l.map (mapPropEntry f)).filter (fun p => p.ent == f e) =
      (l.filter (fun p => p.ent == e)).map (mapPropEntry f) := by
  intro l
  induction l with
  | nil => rfl
  | cons p l ih =>
    have hc2 : ((mapPropEntry f p).ent == f e) = (p.ent == e) := by
      simp only [mapPropEntry]
      exact beq_map_inj hinj p.ent e
    cases hc : (p.ent == e) with
    | true => simp [List.filter_cons, hc, hc2, ih]
    | false => simp [List.filter_cons, hc, hc2, ih]

theorem filter_ents_map {f : Nat → Nat} (hinj : Function.Injective f) (e : Nat) :
    ∀ (l : List Ent),
    (l.map (mapEnt f)).filter (fun en => en.parent == f e) =
      (l.filter (fun en => en.parent == e)).map (mapEnt f) := by
  intro l
  induction l with
  | nil => rfl
  | cons en l ih =>
    have hc2 : ((mapEnt f en).parent == f e) = (en.parent == e) := by
      simp only [mapEnt]
      exact beq_map_inj hinj en.parent e
    cases hc : (en.parent == e) with
    | true => simp [List.filter_cons, hc, hc2, ih]
    | false => simp [List.filter_cons, hc, hc2, ih]

theorem typeOf_map {f : Nat → Nat} (hinj : Function.Injective f) (s : Store) (e : Nat) :
    typeOf (mapStore f s) (f e) = typeOf s e := by
  simp only [typeOf, mapStore, find_ent_map hinj]
  cases s.ents.find? (fun en => en.id == e) with
  | none => rfl
  | some en => rfl

theorem propsOf_map {f : Nat → Nat} (hinj : Function.Injective f) (s : Store) (e : Nat) :
    propsOf (mapStore f s) (f e) = propsOf s e := by
  simp only [propsOf, mapStore, filter_props_map hinj, List.map_map]
  exact List.map_congr_left (fun p _ => rfl)

theorem childrenOf_map {f : Nat → Nat} (hinj : Function.Injective f) (s : Store) (e : Nat) :
    childrenOf (mapStore f s) (f e) = (childrenOf s e).map f := by
  simp only [childrenOf, mapStore, filter_ents_map hinj, List.map_map]
  exact List.map_congr_left (fun en _ => rfl)

theorem extractF_map {f : Nat → Nat} (hinj : Function.Injective f) :
    ∀ (d : Nat) (s : Store) (e : Nat), extractF d (mapStore f s) (f e) = extractF d s e := by
  intro d
  induction d with
  | zero =>
    intro s e
    simp [extractF, typeOf_map hinj, propsOf_map hinj]
  | succ d ih =>
    intro s e
    simp only [extractF, typeOf_map hinj, propsOf_map hinj, childrenOf_map hinj,
      List.map_map]
    congr 1
    exact List.map_congr_left (fun c _ => ih s c)

/-- C10: `apply` is deterministic: applying the same template with the same
registry to two fresh entities of identical initial stores (in our
functional embedding, the same store) produces structurally identical
entity subtrees at every depth, independently of which fresh identifier
was targeted. -/
theorem apply_deterministic (n : Nat) (t : Template) (reg : Registry) (e1 e2 : Nat)
    (s sA sB : Store) (trA trB : List Op) (d : Nat)
    (h1 : FreshIn s e1) (h2 : FreshIn s e2)
    (hA : applyF n t reg e1 s = some (sA, trA))
    (hB : applyF n t reg e2 s = some (sB, trB)) :
    extractF d sA e1 = extractF d sB e2 := by
  have hinj := swapId_inj e1 e2
  have hfix : ∀ x, s.nextId ≤ x → swapId e1 e2 x = x := by
    intro x hx
    have hx1 : x ≠ e1 := by have := h1.1; omega
    have hx2 : x ≠ e2 := by have := h2.1; omega
    exact swapId_other hx1 hx2
  have hid : mapStore (swapId e1 e2) s = s := mapStore_swap_fresh s e1 e2 h1 h2
  have hmap := applyF_map hinj s.nextId hfix n t reg e1 s (Nat.le_refl _)
  rw [swapId_left, hid, hA, hB] at hmap
  simp only [Option.map_some', Option.some.injEq, Prod.mk.injEq] at hmap
  rw [hmap.1]
  have hext := extractF_map hinj d sA e1
  rw [swapId_left] at hext
  exact hext.symm

theorem apply_deterministic_witness :
    FreshIn detS 1 ∧ FreshIn detS 2 ∧
      applyF 2 stoneFx [] 1 detS = some (detSA, detTrA) ∧
      applyF 2 stoneFx [] 2 detS = some (detSB, detTrB) ∧
      extractF 2 detSA 1 = extractF 2 detSB 2 := by
  have h1 : FreshIn detS 1 := ⟨by decide, by decide, by decide⟩
  have h2 : FreshIn detS 2 := ⟨by decide, by decide, by decide⟩
  exact ⟨h1, h2, rfl, rfl,
    apply_deterministic 2 stoneFx [] 1 2 detS detSA detSB detTrA detTrB 2 h1 h2 rfl rfl⟩

end Pyramid
